import Mathlib

/-!
Verification of `marker/processors/llm/__init__.py`.

Shallow embedding conventions:
- Python strings are modelled as `List Char` (`Str`); `str.strip()` is
  `pyStrip`, `str.lstrip("/")` is `pyLstripSlash`, `str.split("/")` is
  `splitChar` (same semantics as Python `split` with an explicit separator:
  `"" -> [""]`, adjacent separators produce empty segments).
- Exceptions are modelled with `Except`; a caught-and-logged exception is an
  `.ok` result, a propagating exception is an `.error`.
- `BlockTypes`, `BlockId` and the document tree are external collaborators of
  the analysed file; they are modelled from the spec (see the doc comments of
  the individual definitions).
- Rational numbers stand in for Python floats: pixel coordinates and page
  dimensions are `ℚ`, so the arithmetic of `normalize_block_json` is exact.
-/

namespace Marker

/-- Python strings, modelled as lists of characters. -/
abbrev Str := List Char

/-- Coerce a Lean string literal to the `Str` model. -/
def S (s : String) : Str := s.data

/-- `Char.isWhitespace`, the predicate trimmed by Python `str.strip()`. -/
def isWs (c : Char) : Bool := c.isWhitespace

/-- Python `str.strip()`: remove leading and trailing whitespace. -/
def pyStrip (l : Str) : Str :=
  ((l.dropWhile isWs).reverse.dropWhile isWs).reverse

/-- Python `str.lstrip("/")`: remove leading `'/'` characters only. -/
def pyLstripSlash (l : Str) : Str := l.dropWhile (· = '/')

/-- Python `str.split(sep)` for a one-character separator: splits on every
occurrence of `sep`, keeping empty segments (so `"" -> [""]`). -/
def splitChar (sep : Char) : Str → List Str
  | [] => [[]]
  | c :: cs =>
    if c = sep then [] :: splitChar sep cs
    else
      match splitChar sep cs with
      | [] => [[c]]
      | g :: gs => (c :: g) :: gs

/-- Modelled from the spec: `BlockTypes`, "a fixed enumeration of block
kinds" (external to the analysed file).  The exact member list is not in the
source slice; a representative fixed enumeration is used — every claim is
generic in the members. -/
inductive BlockTypes where
  | Text
  | Table
  | Picture
  | Line
  | Caption
deriving DecidableEq

/-- The enumeration members, for name resolution. -/
def BlockTypes.all : List BlockTypes :=
  [.Text, .Table, .Picture, .Line, .Caption]

/-- The textual name of an enumeration member (`str(block_type)`). -/
def BlockTypes.name : BlockTypes → Str
  | .Text => S "Text"
  | .Table => S "Table"
  | .Picture => S "Picture"
  | .Line => S "Line"
  | .Caption => S "Caption"

/-- `getattr(BlockTypes, name)`: resolve a segment against the fixed
enumeration; an unknown (in particular empty) name fails. -/
def BlockTypes.fromName (s : Str) : Option BlockTypes :=
  BlockTypes.all.find? (fun bt => bt.name = s)

/-- Modelled from the spec: `BlockAddress` / `BlockId`, "a value type
`{page_id, block_type, block_id}`" (the class itself is external to the
analysed file).  Field order follows the `BlockId(...)` call site. -/
structure BlockId where
  page_id : Str
  block_id : Str
  block_type : BlockTypes
deriving DecidableEq

/-- The root segment of the canonical encoding (the spec writes the encoding
as `"/<root>/<page_id>/<block_type>/<block_id>"`; decoding discards it). -/
def rootSeg : Str := ['p', 'a', 'g', 'e']

/-- Modelled from the spec: `str(block.id)`, the canonical textual encoding
`"/<root>/<page_id>/<block_type>/<block_id>"` of a block address. -/
def encodeBlockId (a : BlockId) : Str :=
  ['/'] ++ rootSeg ++ ['/'] ++ a.page_id ++ ['/'] ++ a.block_type.name
    ++ ['/'] ++ a.block_id

/-- Address decoding exactly as `handle_rewrites` performs it on a record's
string id (`__init__.py` lines 113–119):
`block_data["id"].strip().lstrip("/")`, then
`_, page_id, block_type, block_id = block_id.split("/")` (exactly four
segments or an unpacking error), then `getattr(BlockTypes, block_type)`.
`none` models the raised-and-caught per-record exception (`DecodeError`). -/
def decodeBlockId (s : Str) : Option BlockId :=
  match splitChar '/' (pyLstripSlash (pyStrip s)) with
  | [_, pid, bt, bid] =>
    match BlockTypes.fromName bt with
    | some ty => some ⟨pid, bid, ty⟩
    | none => none
  | _ => none

example : decodeBlockId (S "/page/p1/Text/b1") =
    some ⟨S "p1", S "b1", .Text⟩ := by decide

example : decodeBlockId (S "/doc/p1/UnknownType/b1") = none := by decide

example : decodeBlockId (S "/page/p1/Text/b1/") = none := by decide

example : decodeBlockId (S "/page//Text/b1") =
    some ⟨[], S "b1", .Text⟩ := by decide

/-! ## Document model

The document tree is an external collaborator (`marker.schema.document`),
consumed through the narrow interface of §6 of the spec. -/

/-- A pixel bounding box `(x0, y0, x1, y1)` (`block.polygon.bbox`). -/
structure Bbox where
  x0 : ℚ
  y0 : ℚ
  x1 : ℚ
  y1 : ℚ
deriving DecidableEq

/-- Modelled from the spec: a page polygon's pixel dimensions
(`page.polygon.width` / `page.polygon.height`). -/
structure PagePolygon where
  width : ℚ
  height : ℚ
deriving DecidableEq

/-- Modelled from the spec: a Block is "a node with a stable local
identifier, a type tag, a bounding box in page-pixel coordinates, and
optionally a mutable markup field".  `hasHtml` models `hasattr(block,
"html")`; `html` is the markup field (meaningful when `hasHtml`). -/
structure Block where
  id : BlockId
  polygonBbox : Bbox
  hasHtml : Bool
  html : Str
deriving DecidableEq

/-- Modelled from the spec: a Page "has pixel width/height; owns an ordered
sequence of Blocks". -/
structure Page where
  polygon : PagePolygon
  blocks : List Block
deriving DecidableEq

/-- Modelled from the spec: a Document is "an ordered sequence of Pages". -/
structure Document where
  pages : List Page
deriving DecidableEq

/-- Modelled from the spec: `document.lookup(address) -> block | not-found`
(`document.get_block(block_id)`): the first block of the document whose id
equals the given address, if any. -/
def Document.getBlock (d : Document) (bid : BlockId) : Option Block :=
  (d.pages.flatMap Page.blocks).find? (fun b => b.id = bid)

/-- Overwrite the `html` field of the first block with the given id in a
block list (the block `get_block` resolves to); `none` when absent. -/
def updateFirst (bid : BlockId) (h : Str) : List Block → Option (List Block)
  | [] => none
  | b :: rest =>
    if b.id = bid then some ({ b with html := h } :: rest)
    else (updateFirst bid h rest).map (b :: ·)

/-- The document after `block.html = html` on the block `get_block`
resolves `bid` to (the first matching block); unchanged when absent. -/
def Document.setHtml (d : Document) (bid : BlockId) (h : Str) : Document :=
  ⟨go d.pages⟩
where
  go : List Page → List Page
    | [] => []
    | p :: ps =>
      match updateFirst bid h p.blocks with
      | some bs => { p with blocks := bs } :: ps
      | none => p :: go ps

/-! ## Rewrite applier (`load_blocks` / `handle_rewrites`) -/

/-- A decoded JSON value sitting under the `"id"` key of a result record: a
string, or some non-string JSON value (on which `.strip()` raises). -/
inductive JsonVal where
  | str (s : Str)
  | nonstr
deriving DecidableEq

/-- A result record as `handle_rewrites` consumes it: a dict whose `"id"`
and `"html"` keys may each be absent (`none`). -/
structure Record where
  id : Option JsonVal
  html : Option Str
deriving DecidableEq

/-- The exceptions that can escape the rewrite applier. -/
inductive Err where
  | jsonError
  | keyError
deriving DecidableEq

/-- A raw result string handed to `load_blocks`: either valid JSON decoding
to a record dict, or malformed JSON. -/
inductive Raw where
  | good (r : Record)
  | badJson
deriving DecidableEq

/-- Modelled from the spec and the Python standard library: `json.loads`
yields the structured record or raises on malformed JSON. -/
def jsonLoads : Raw → Except Err Record
  | .good r => .ok r
  | .badJson => .error .jsonError

/-- `load_blocks` (`__init__.py` lines 107–108): a list comprehension
`[json.loads(block) for block in response["blocks"]]`, evaluated left to
right — the first `json.loads` failure propagates out of the whole
comprehension. -/
def loadBlocks : List Raw → Except Err (List Record)
  | [] => .ok []
  | r :: rs =>
    match jsonLoads r with
    | .error e => .error e
    | .ok r0 =>
      match loadBlocks rs with
      | .error e => .error e
      | .ok rest => .ok (r0 :: rest)

/-- One iteration of the `handle_rewrites` loop body (`__init__.py` lines
111–129) on one record:
- `block_data["id"]` missing: the `KeyError` is caught, but the handler's
  log message re-reads `block_data['id']` and raises `KeyError` itself,
  which propagates (`.error .keyError`);
- non-string id: `.strip()` raises `AttributeError`, caught and logged
  (the handler's re-read succeeds), record skipped;
- undecodable id, lookup miss, or missing `"html"` key: caught or
  `continue`d, record skipped;
- otherwise, when the block has an `html` attribute, it is overwritten. -/
def processRecord (doc : Document) (r : Record) : Except Err Document :=
  match r.id with
  | none => .error .keyError
  | some .nonstr => .ok doc
  | some (.str s) =>
    match decodeBlockId s with
    | none => .ok doc
    | some bid =>
      match doc.getBlock bid with
      | none => .ok doc
      | some b =>
        if b.hasHtml then
          match r.html with
          | none => .ok doc
          | some h => .ok (doc.setHtml bid h)
        else .ok doc

/-- `handle_rewrites` (`__init__.py` lines 110–129): the per-record loop;
an uncaught exception in one iteration aborts the remaining iterations. -/
def handleRewrites (blocks : List Record) (doc : Document) :
    Except Err Document :=
  match blocks with
  | [] => .ok doc
  | r :: rs =>
    match processRecord doc r with
    | .error e => .error e
    | .ok d => handleRewrites rs d

/-- `load_blocks` followed by `handle_rewrites` (the spec's
`applyRewrites`): decode the raw result strings, then apply them. -/
def applyRewrites (raws : List Raw) (doc : Document) : Except Err Document :=
  match loadBlocks raws with
  | .error e => .error e
  | .ok recs => handleRewrites recs doc

/-! ## Geometry normalizer / request builder (`normalize_block_json`) -/

/-- The bbox computation of `normalize_block_json` (`__init__.py` lines
86–96): each coordinate divided by the corresponding page dimension and
multiplied by 1000, with no clamping. -/
def normalizedBbox (b : Bbox) (W H : ℚ) : Bbox :=
  ⟨b.x0 / W * 1000, b.y0 / H * 1000, b.x1 / W * 1000, b.y1 / H * 1000⟩

/-- The payload assembled by `normalize_block_json`. -/
structure BlockJson where
  id : Str
  block_type : Str
  bbox : Bbox
  html : Str
deriving DecidableEq

/-- `normalize_block_json` (`__init__.py` lines 82–105).  `render` models
the external collaborator `json_to_html(block.render(document))`. -/
def normalizeBlockJson (render : Document → Block → Str) (block : Block)
    (document : Document) (page : Page) : BlockJson :=
  { id := encodeBlockId block.id
    block_type := block.id.block_type.name
    bbox := normalizedBbox block.polygonBbox page.polygon.width
      page.polygon.height
    html := render document block }

/-! ## Whole-document orchestrator (`rewrite_blocks` / `__call__`)

`ThreadPoolExecutor`, `as_completed` and `tqdm` are external collaborators.
Modelled from the spec: every submitted task runs to completion — "once
submitted, a task runs to completion; there is no timeout or
cooperative-cancellation mechanism", and leaving the pool's context
"still drains every submitted task" — while `as_completed` yields the
completions in an arbitrary order, modelled by an explicit `order`
parameter ranging over the permutations of the submitted tasks. -/

/-- `page.contained_blocks(document, block_types)` — modelled from the
spec: "blocks matching a set of allowed types", `none` meaning
unrestricted. -/
def matchingBlocks (bt : Option (List BlockTypes)) (_d : Document)
    (p : Page) : List Block :=
  match bt with
  | none => p.blocks
  | some ts => p.blocks.filter (fun b => ts.contains b.id.block_type)

/-- The count computed at `__init__.py` lines 151–154: the number of
blocks, over all pages, matching the configured type filter. -/
def totalBlocks (d : Document) (bt : Option (List BlockTypes)) : ℕ :=
  (d.pages.map (fun p => (matchingBlocks bt d p).length)).sum

/-- The task list submitted at `__init__.py` lines 163–167: one task per
matching `(page, block)` pair, in page order. -/
def submittedTasks (d : Document) (bt : Option (List BlockTypes)) :
    List (Page × Block) :=
  d.pages.flatMap (fun p => (matchingBlocks bt d p).map (fun b => (p, b)))

/-- What one call to `rewrite_blocks` did: whether the worker pool and the
progress bar were created, the recorded pool bound, how many
`pbar.update(1)` calls ran, which submitted tasks actually executed, and
the exception `future.result()` re-raised, if any. -/
structure RunTrace where
  poolCreated : Bool
  pbarCreated : Bool
  poolSize : ℕ
  progressUpdates : ℕ
  executed : List (Page × Block)
  raised : Option Err
deriving DecidableEq

/-- The number of completions iterated before the first failing
`future.result()` (each one advancing the progress bar). -/
def successesBefore (rs : List (Except Err Unit)) : ℕ :=
  (rs.takeWhile (fun r => r.isOk)).length

/-- The first error in completion order, the one `future.result()`
re-raises. -/
def firstError (rs : List (Except Err Unit)) : Option Err :=
  rs.findSome? (fun r => match r with | .error e => some e | .ok _ => none)

/-- `rewrite_blocks` (`__init__.py` lines 149–172).  `hook` is the
subclass's `process_rewriting`, returning `.error` when it raises; `k` is
`max_concurrency`; `order` is the completion order produced by
`as_completed` (a permutation of the submitted tasks — the pool model above
runs every submitted task).  The pool bound `k` affects scheduling only,
never which tasks run. -/
def rewriteBlocks (d : Document) (bt : Option (List BlockTypes)) (k : ℕ)
    (hook : Page → Block → Except Err Unit)
    (order : List (Page × Block)) : RunTrace :=
  if totalBlocks d bt = 0 then
    { poolCreated := false, pbarCreated := false, poolSize := k
      progressUpdates := 0, executed := [], raised := none }
  else
    let results := order.map (fun pb => hook pb.1 pb.2)
    { poolCreated := true, pbarCreated := true, poolSize := k
      progressUpdates := successesBefore results, executed := order
      raised := firstError results }

/-! ## Top-level entry points (`__call__`) -/

/-- `BaseLLMProcessor.__init__` (`__init__.py` lines 60–67): the service is
stored only when `use_llm` is set; otherwise `llm_service` stays `None`. -/
def initLlmService (use_llm : Bool) (llm_service : Option Unit) :
    Option Unit :=
  if use_llm then llm_service else none

/-- The outcome of a top-level `__call__`: the document state afterwards,
whether the wrapped rewrite ran, and the warning logged for a caught
failure, if any. -/
structure CallResult where
  doc : Document
  invoked : Bool
  warned : Option Err
deriving DecidableEq

/-- `BaseLLMComplexBlockProcessor.__call__` (`__init__.py` lines 137–144).
`rewrite` abstracts `self.rewrite_blocks(document)`: it returns the
document state it left behind together with the exception it raised, if
any (mutations made before a raise persist).  The `Except` result type
records whether `__call__` itself propagates an exception: the
`try/except Exception` around the body means it never does. -/
def complexCall (use_llm : Bool) (llm_service : Option Unit)
    (document : Document) (rewrite : Document → Document × Option Err) :
    Except Err CallResult :=
  if use_llm = false ∨ llm_service = none then
    .ok { doc := document, invoked := false, warned := none }
  else
    match rewrite document with
    | (d, none) => .ok { doc := d, invoked := true, warned := none }
    | (d, some e) => .ok { doc := d, invoked := true, warned := some e }

/-- `BaseLLMSimpleBlockProcessor.__call__` (`__init__.py` lines 184–189).
`rewriteBlock` abstracts `self.rewrite_block(result, prompt_data,
document)` the same way; the caught failure is logged with a full
traceback and suppressed. -/
def simpleCall (document : Document)
    (rewriteBlock : Document → Document × Option Err) :
    Except Err CallResult :=
  match rewriteBlock document with
  | (d, none) => .ok { doc := d, invoked := true, warned := none }
  | (d, some e) => .ok { doc := d, invoked := true, warned := some e }

/-! ## Helper lemmas: strings and the codec -/

/-- A well-formed path segment: no separator and no whitespace, so that it
survives `strip`/`split` untouched.  This is the "valid page_id / block_id"
notion of the round-trip property. -/
def isToken (l : Str) : Prop := ∀ c ∈ l, c ≠ '/' ∧ isWs c = false

instance (l : Str) : Decidable (isToken l) := by
  unfold isToken; infer_instance

lemma dropWhile_eq_self {p : Char → Bool} {l : Str}
    (h : ∀ c ∈ l, p c = false) : l.dropWhile p = l := by
  cases l with
  | nil => rfl
  | cons c cs =>
    rw [List.dropWhile_cons, if_neg]
    simp [h c (List.mem_cons_self c cs)]

lemma pyStrip_eq_self {l : Str} (h : ∀ c ∈ l, isWs c = false) :
    pyStrip l = l := by
  unfold pyStrip
  rw [dropWhile_eq_self h, dropWhile_eq_self, List.reverse_reverse]
  intro c hc
  exact h c (List.mem_reverse.mp hc)

lemma splitChar_no_sep {sep : Char} {l : Str} (h : ∀ c ∈ l, c ≠ sep) :
    splitChar sep l = [l] := by
  induction l with
  | nil => rfl
  | cons c cs ih =>
    rw [splitChar, if_neg (h c (List.mem_cons_self c cs))]
    rw [ih fun x hx => h x (List.mem_cons_of_mem c hx)]

lemma splitChar_append_sep {sep : Char} {l : Str} (r : Str)
    (h : ∀ c ∈ l, c ≠ sep) :
    splitChar sep (l ++ sep :: r) = l :: splitChar sep r := by
  induction l with
  | nil => simp [splitChar]
  | cons c cs ih =>
    rw [List.cons_append, splitChar, if_neg (h c (List.mem_cons_self c cs))]
    rw [ih fun x hx => h x (List.mem_cons_of_mem c hx)]

lemma name_token (bt : BlockTypes) : isToken bt.name := by
  cases bt <;> decide

lemma fromName_name (bt : BlockTypes) :
    BlockTypes.fromName bt.name = some bt := by
  cases bt <;> decide

lemma no_ws_append {l1 l2 : Str} (a1 : ∀ c ∈ l1, isWs c = false)
    (a2 : ∀ c ∈ l2, isWs c = false) : ∀ c ∈ l1 ++ l2, isWs c = false := by
  intro c hc
  rcases List.mem_append.mp hc with h | h
  exacts [a1 c h, a2 c h]

lemma encode_no_ws {a : BlockId} (h1 : isToken a.page_id)
    (h2 : isToken a.block_id) : ∀ c ∈ encodeBlockId a, isWs c = false := by
  have hpid : ∀ c ∈ a.page_id, isWs c = false := fun c hc => (h1 c hc).2
  have hbid : ∀ c ∈ a.block_id, isWs c = false := fun c hc => (h2 c hc).2
  have hname : ∀ c ∈ a.block_type.name, isWs c = false :=
    fun c hc => (name_token a.block_type c hc).2
  have hs : ∀ c ∈ (['/'] : Str), isWs c = false := by decide
  have hroot : ∀ c ∈ rootSeg, isWs c = false := by decide
  exact no_ws_append (no_ws_append (no_ws_append (no_ws_append
    (no_ws_append (no_ws_append (no_ws_append hs hroot) hs) hpid) hs)
    hname) hs) hbid

lemma encode_as_cons (a : BlockId) :
    encodeBlockId a = '/' :: ('p' :: 'a' :: 'g' :: 'e' ::
      ('/' :: (a.page_id ++ '/' ::
        (a.block_type.name ++ '/' :: a.block_id)))) := by
  simp [encodeBlockId, rootSeg]

lemma lstrip_encode (a : BlockId) :
    pyLstripSlash (encodeBlockId a) =
      ['p', 'a', 'g', 'e'] ++ '/' :: (a.page_id ++ '/' ::
        (a.block_type.name ++ '/' :: a.block_id)) := by
  rw [encode_as_cons]; rfl

/-- C5.  Address round-trip: decoding the canonical textual encoding of a
well-formed address (valid, i.e. separator- and whitespace-free, `page_id`
and `block_id`; `block_type` a member of the enumeration) yields the
original address. -/
theorem claim_C5_address_roundtrip (a : BlockId) (h1 : isToken a.page_id)
    (h2 : isToken a.block_id) :
    decodeBlockId (encodeBlockId a) = some a := by
  have hno := encode_no_ws h1 h2
  have hpid : ∀ c ∈ a.page_id, c ≠ '/' := fun c hc => (h1 c hc).1
  have hbid : ∀ c ∈ a.block_id, c ≠ '/' := fun c hc => (h2 c hc).1
  have hname : ∀ c ∈ a.block_type.name, c ≠ '/' :=
    fun c hc => (name_token a.block_type c hc).1
  unfold decodeBlockId
  rw [pyStrip_eq_self hno, lstrip_encode,
    splitChar_append_sep _ (by decide), splitChar_append_sep _ hpid,
    splitChar_append_sep _ hname, splitChar_no_sep hbid]
  simp [fromName_name]

/-- C5 witness: the round trip at the concrete address `p1 / Text / b1`. -/
theorem claim_C5_address_roundtrip_witness :
    isToken (S "p1") ∧ isToken (S "b1") ∧
    decodeBlockId (encodeBlockId ⟨S "p1", S "b1", .Text⟩) =
      some ⟨S "p1", S "b1", .Text⟩ :=
  ⟨by decide, by decide,
    claim_C5_address_roundtrip ⟨S "p1", S "b1", .Text⟩ (by decide)
      (by decide)⟩

/-! ## C3: what address decoding actually does -/

/-- Python-style `rstrip("/")`: remove trailing `'/'` characters (what the
claim says happens, but `lstrip("/")` does not do). -/
def rstripSlash (l : Str) : Str := (l.reverse.dropWhile (· = '/')).reverse

/-- Decoder following the claim's words (for comparison with
`decodeBlockId`, which follows the source): trim leading AND trailing
separators, split into exactly four segments, resolve the type against the
enumeration, and fail on any empty segment. -/
def claimStatedDecode (s : Str) : Option BlockId :=
  match splitChar '/' (rstripSlash (pyLstripSlash (pyStrip s))) with
  | [root, pid, bt, bid] =>
    if root.isEmpty || pid.isEmpty || bid.isEmpty then none
    else
      match BlockTypes.fromName bt with
      | some ty => some ⟨pid, bid, ty⟩
      | none => none
  | _ => none

/-- C3 counterexample.  The claim's decoder and the code's decoder disagree
on two concrete inputs: a trailing separator is NOT trimmed by the code
(`"/page/p1/Text/b1/"` fails to decode although the claim's algorithm
accepts it), and an empty `page_id` segment does NOT yield a `DecodeError`
(`"/page//Text/b1"` decodes to an address with empty `page_id` although the
claim requires failure). -/
theorem claim_C3_counterexample :
    claimStatedDecode (S "/page/p1/Text/b1/") =
        some ⟨S "p1", S "b1", .Text⟩ ∧
    decodeBlockId (S "/page/p1/Text/b1/") = none ∧
    claimStatedDecode (S "/page//Text/b1") = none ∧
    decodeBlockId (S "/page//Text/b1") = some ⟨[], S "b1", .Text⟩ := by
  decide

/-- C3 as amended: decoding trims surrounding whitespace and LEADING
separators only, splits into exactly four segments
(`root, page_id, block_type, block_id`), and resolves `block_type` against
the fixed enumeration.  A segment-count mismatch or an unknown (in
particular empty) type name yields a `DecodeError`, which the caller treats
as a per-record, non-fatal condition; empty `page_id` or `block_id`
segments decode successfully. -/
theorem claim_C3_amended :
    (∀ s : Str, (splitChar '/' (pyLstripSlash (pyStrip s))).length ≠ 4 →
      decodeBlockId s = none) ∧
    (∀ (s r0 pid bt bid : Str),
      splitChar '/' (pyLstripSlash (pyStrip s)) = [r0, pid, bt, bid] →
      BlockTypes.fromName bt = none → decodeBlockId s = none) ∧
    (∀ (s r0 pid bt bid : Str) (ty : BlockTypes),
      splitChar '/' (pyLstripSlash (pyStrip s)) = [r0, pid, bt, bid] →
      BlockTypes.fromName bt = some ty →
      decodeBlockId s = some ⟨pid, bid, ty⟩) ∧
    BlockTypes.fromName [] = none ∧
    (∀ (doc : Document) (s : Str) (h : Option Str),
      decodeBlockId s = none →
      processRecord doc { id := some (.str s), html := h } = .ok doc) := by
  refine ⟨?_, ?_, ?_, by decide, ?_⟩
  · intro s hlen
    unfold decodeBlockId
    rcases hxs : splitChar '/' (pyLstripSlash (pyStrip s)) with
      _ | ⟨a, _ | ⟨b, _ | ⟨c, _ | ⟨d, _ | _⟩⟩⟩⟩ <;>
      simp_all [hxs]
  · intro s r0 pid bt bid hxs hbt
    unfold decodeBlockId
    rw [hxs]
    simp [hbt]
  · intro s r0 pid bt bid ty hxs hbt
    unfold decodeBlockId
    rw [hxs]
    simp [hbt]
  · intro doc s h hdec
    simp [processRecord, hdec]

/-- C3 amended, witness: the three decoder clauses and the per-record skip
at concrete inputs (`"/page/p1"` has too few segments; `"/a/b/Bad/c"` has an
unknown type; `"/page/p1/Text/b1"` decodes). -/
theorem claim_C3_amended_witness :
    (splitChar '/' (pyLstripSlash (pyStrip (S "/page/p1")))).length ≠ 4 ∧
    decodeBlockId (S "/page/p1") = none ∧
    splitChar '/' (pyLstripSlash (pyStrip (S "/a/b/Bad/c"))) =
      [S "a", S "b", S "Bad", S "c"] ∧
    BlockTypes.fromName (S "Bad") = none ∧
    decodeBlockId (S "/a/b/Bad/c") = none ∧
    splitChar '/' (pyLstripSlash (pyStrip (S "/page/p1/Text/b1"))) =
      [S "page", S "p1", S "Text", S "b1"] ∧
    BlockTypes.fromName (S "Text") = some .Text ∧
    decodeBlockId (S "/page/p1/Text/b1") = some ⟨S "p1", S "b1", .Text⟩ ∧
    processRecord ⟨[]⟩ { id := some (.str (S "/page/p1")), html := none } =
      .ok ⟨[]⟩ := by
  refine ⟨by decide, claim_C3_amended.1 (S "/page/p1") (by decide),
    by decide, by decide,
    claim_C3_amended.2.1 (S "/a/b/Bad/c") (S "a") (S "b") (S "Bad") (S "c")
      (by decide) (by decide),
    by decide, by decide,
    claim_C3_amended.2.2.1 (S "/page/p1/Text/b1") (S "page") (S "p1")
      (S "Text") (S "b1") .Text (by decide) (by decide), ?_⟩
  exact claim_C3_amended.2.2.2.2 ⟨[]⟩ (S "/page/p1") none
    (claim_C3_amended.1 (S "/page/p1") (by decide))

/-! ## Helper lemmas: the rewrite applier -/

lemma loadBlocks_map_good (recs : List Record) :
    loadBlocks (recs.map Raw.good) = .ok recs := by
  induction recs with
  | nil => rfl
  | cons r rs ih => simp [loadBlocks, jsonLoads, ih]

lemma loadBlocks_badJson (pre : List Record) (post : List Raw) :
    loadBlocks (pre.map Raw.good ++ Raw.badJson :: post) =
      .error .jsonError := by
  induction pre with
  | nil => rfl
  | cons r rs ih => simp [loadBlocks, jsonLoads, ih]

lemma processRecord_ok_of_id (doc : Document) (r : Record)
    (h : r.id.isSome) : ∃ d, processRecord doc r = .ok d := by
  unfold processRecord
  split
  · simp_all
  · exact ⟨doc, rfl⟩
  · split
    · exact ⟨doc, rfl⟩
    · split
      · exact ⟨doc, rfl⟩
      · split
        · split
          · exact ⟨doc, rfl⟩
          · exact ⟨_, rfl⟩
        · exact ⟨doc, rfl⟩

lemma processRecord_decode_none (doc : Document) (s : Str) (h : Option Str)
    (hdec : decodeBlockId s = none) :
    processRecord doc { id := some (.str s), html := h } = .ok doc := by
  simp [processRecord, hdec]

lemma processRecord_update (doc : Document) (r : Record) (s : Str)
    (bid : BlockId) (b : Block) (h : Str) (hid : r.id = some (.str s))
    (hdec : decodeBlockId s = some bid)
    (hget : doc.getBlock bid = some b) (hh : b.hasHtml = true)
    (hhtml : r.html = some h) :
    processRecord doc r = .ok (doc.setHtml bid h) := by
  obtain ⟨id, html⟩ := r
  simp only at hid hhtml
  subst hid hhtml
  simp [processRecord, hdec, hget, hh]

lemma handleRewrites_ok_of_ids : ∀ (recs : List Record) (doc : Document),
    (∀ r ∈ recs, r.id.isSome) → ∃ d, handleRewrites recs doc = .ok d := by
  intro recs
  induction recs with
  | nil => exact fun doc _ => ⟨doc, rfl⟩
  | cons r rs ih =>
    intro doc h
    obtain ⟨d, hd⟩ :=
      processRecord_ok_of_id doc r (h r (List.mem_cons_self r rs))
    obtain ⟨d2, hd2⟩ := ih d (fun x hx => h x (List.mem_cons_of_mem r hx))
    refine ⟨d2, ?_⟩
    simp only [handleRewrites, hd]
    exact hd2

lemma handleRewrites_skip {r : Record}
    (hr : ∀ doc, processRecord doc r = .ok doc) :
    ∀ (pre post : List Record) (doc : Document),
      handleRewrites (pre ++ r :: post) doc =
        handleRewrites (pre ++ post) doc := by
  intro pre
  induction pre with
  | nil =>
    intro post doc
    simp [handleRewrites, hr doc]
  | cons p ps ih =>
    intro post doc
    simp only [List.cons_append, handleRewrites]
    cases hp : processRecord doc p with
    | error e => rfl
    | ok d => exact ih post d

lemma handleRewrites_keyerror : ∀ (pre : List Record),
    (∀ x ∈ pre, x.id.isSome) → ∀ (r : Record), r.id = none →
    ∀ (post : List Record) (doc : Document),
      handleRewrites (pre ++ r :: post) doc = .error .keyError := by
  intro pre
  induction pre with
  | nil =>
    intro _ r hr post doc
    obtain ⟨id, html⟩ := r
    simp only at hr
    subst hr
    simp [handleRewrites, processRecord]
  | cons p ps ih =>
    intro hpre r hr post doc
    obtain ⟨d, hd⟩ :=
      processRecord_ok_of_id doc p (hpre p (List.mem_cons_self p ps))
    simp only [List.cons_append, handleRewrites, hd]
    exact ih (fun x hx => hpre x (List.mem_cons_of_mem p hx)) r hr post d

/-! ## Concrete fixtures for counterexamples and witnesses -/

/-- A block `p1/Text/b1` carrying markup `"old"`. -/
def exBlock : Block :=
  ⟨⟨S "p1", S "b1", .Text⟩, ⟨0, 0, 0, 0⟩, true, S "old"⟩

/-- A one-page document containing only `exBlock`. -/
def exDoc : Document := ⟨[⟨⟨1, 1⟩, [exBlock]⟩]⟩

/-- A well-formed result record addressing `exBlock` with new markup. -/
def exRec : Record :=
  ⟨some (.str (encodeBlockId ⟨S "p1", S "b1", .Text⟩)), some (S "new")⟩

/-- A record whose id is present but malformed (one segment). -/
def badIdRec : Record := ⟨some (.str (S "bad")), some (S "x")⟩

/-- A record dict lacking the `"id"` key. -/
def noIdRec : Record := ⟨none, some (S "x")⟩

/-! ## C1: per-record isolation of the rewrite applier -/

/-- C1 counterexample.  A batch of two raw records of which the first is
malformed JSON: `load_blocks` raises out of `applyRewrites` before any
record is processed, so the valid second record's block is NOT updated and
the call does not return normally — JSON-decode failures are not isolated
per record. -/
theorem claim_C1_counterexample :
    applyRewrites [Raw.badJson, Raw.good exRec] exDoc =
      .error .jsonError := rfl

/-- C1 as amended: `handle_rewrites` processes each successfully
JSON-decoded record independently — a record whose id fails address
decoding is skipped without affecting the others, a record that resolves to
a block with an html attribute updates that block, and a batch in which
every record carries an `"id"` key returns without raising; but a record
that fails JSON decoding makes `load_blocks` raise and aborts the entire
batch before any record is processed. -/
theorem claim_C1_amended :
    (∀ (doc : Document) (recs : List Record),
      (∀ r ∈ recs, r.id.isSome) →
      ∃ d, applyRewrites (recs.map Raw.good) doc = .ok d) ∧
    (∀ (doc : Document) (r : Record) (s : Str) (pre post : List Record),
      r.id = some (.str s) → decodeBlockId s = none →
      handleRewrites (pre ++ r :: post) doc =
        handleRewrites (pre ++ post) doc) ∧
    (∀ (doc : Document) (r : Record) (s : Str) (bid : BlockId) (b : Block)
      (h : Str), r.id = some (.str s) → decodeBlockId s = some bid →
      doc.getBlock bid = some b → b.hasHtml = true → r.html = some h →
      processRecord doc r = .ok (doc.setHtml bid h)) ∧
    (∀ (doc : Document) (pre : List Record) (post : List Raw),
      applyRewrites (pre.map Raw.good ++ Raw.badJson :: post) doc =
        .error .jsonError) := by
  refine ⟨?_, ?_, ?_, ?_⟩
  · intro doc recs h
    obtain ⟨d, hd⟩ := handleRewrites_ok_of_ids recs doc h
    exact ⟨d, by simp [applyRewrites, loadBlocks_map_good, hd]⟩
  · intro doc r s pre post hid hdec
    refine handleRewrites_skip ?_ pre post doc
    intro d
    obtain ⟨id, html⟩ := r
    simp only at hid
    subst hid
    exact processRecord_decode_none d s html hdec
  · exact fun doc r s bid b h hid hdec hget hh hhtml =>
      processRecord_update doc r s bid b h hid hdec hget hh hhtml
  · intro doc pre post
    simp [applyRewrites, loadBlocks_badJson]

/-- C1 amended, witness: a valid batch returns without raising; a
malformed-id record in the middle of a batch is skipped; the valid record
updates its block; a malformed-JSON record aborts the batch. -/
theorem claim_C1_amended_witness :
    (∀ r ∈ [exRec], r.id.isSome) ∧
    (∃ d, applyRewrites ([exRec].map Raw.good) exDoc = .ok d) ∧
    handleRewrites ([exRec] ++ badIdRec :: [exRec]) exDoc =
      handleRewrites ([exRec] ++ [exRec]) exDoc ∧
    processRecord exDoc exRec =
      .ok (exDoc.setHtml ⟨S "p1", S "b1", .Text⟩ (S "new")) ∧
    applyRewrites ([exRec].map Raw.good ++ Raw.badJson :: []) exDoc =
      .error .jsonError := by
  refine ⟨by decide, claim_C1_amended.1 exDoc [exRec] (by decide),
    claim_C1_amended.2.1 exDoc badIdRec (S "bad") [exRec] [exRec] rfl
      (by decide), ?_, claim_C1_amended.2.2.2 exDoc [exRec] []⟩
  exact claim_C1_amended.2.2.1 exDoc exRec
    (encodeBlockId ⟨S "p1", S "b1", .Text⟩) ⟨S "p1", S "b1", .Text⟩
    exBlock (S "new") rfl (by decide) rfl rfl rfl

/-! ## C10: per-record failures are caught, a missing id key aborts -/

/-- C10.  For a batch of record dicts each carrying an `"id"` key,
`handle_rewrites` never raises: every per-record failure (non-string id,
undecodable id, lookup miss, missing `"html"` key) is caught inside the
loop.  But when some dict lacks the `"id"` key, the exception handler's log
message re-reads `block_data["id"]` and raises `KeyError`, aborting the
remaining records — for any suffix after the offending record. -/
theorem claim_C10_missing_id_key :
    (∀ (doc : Document) (r : Record), r.id.isSome →
      ∃ d, processRecord doc r = .ok d) ∧
    (∀ (doc : Document) (recs : List Record),
      (∀ r ∈ recs, r.id.isSome) → ∃ d, handleRewrites recs doc = .ok d) ∧
    (∀ (doc : Document) (pre : List Record) (r : Record)
      (post : List Record), (∀ x ∈ pre, x.id.isSome) → r.id = none →
      handleRewrites (pre ++ r :: post) doc = .error .keyError) :=
  ⟨fun doc r h => processRecord_ok_of_id doc r h,
    fun doc recs h => handleRewrites_ok_of_ids recs doc h,
    fun doc pre r post hpre hr => handleRewrites_keyerror pre hpre r hr post doc⟩

/-- C10 witness: concrete instances — a batch with ids present (one of
them malformed, one a lookup miss) succeeds; a record lacking the id key
aborts, leaving the error even though a processable record follows. -/
theorem claim_C10_missing_id_key_witness :
    badIdRec.id.isSome ∧ (∃ d, processRecord exDoc badIdRec = .ok d) ∧
    (∀ r ∈ [exRec, badIdRec], r.id.isSome) ∧
    (∃ d, handleRewrites [exRec, badIdRec] exDoc = .ok d) ∧
    noIdRec.id = none ∧
    handleRewrites ([exRec] ++ noIdRec :: [exRec]) exDoc =
      .error .keyError := by
  refine ⟨by decide, claim_C10_missing_id_key.1 exDoc badIdRec (by decide),
    by decide, claim_C10_missing_id_key.2.1 exDoc [exRec, badIdRec]
      (by decide), rfl, ?_⟩
  exact claim_C10_missing_id_key.2.2 exDoc [exRec] noIdRec [exRec]
    (by decide) rfl

/-! ## C4: exact bbox normalization -/

/-- C4.  For every page with positive pixel dimensions `W`, `H` and every
block bounding box `(x0, y0, x1, y1)`, `normalize_block_json` produces the
normalized bbox `(1000*x0/W, 1000*y0/H, 1000*x1/W, 1000*y1/H)` exactly,
with no clamping to `[0, 1000]` (the equality holds whatever the
coordinates, in range or not). -/
theorem claim_C4_normalize_exact (render : Document → Block → Str)
    (b : Block) (d : Document) (p : Page)
    (_hW : 0 < p.polygon.width) (_hH : 0 < p.polygon.height) :
    (normalizeBlockJson render b d p).bbox =
      ⟨1000 * b.polygonBbox.x0 / p.polygon.width,
       1000 * b.polygonBbox.y0 / p.polygon.height,
       1000 * b.polygonBbox.x1 / p.polygon.width,
       1000 * b.polygonBbox.y1 / p.polygon.height⟩ := by
  simp only [normalizeBlockJson, normalizedBbox, Bbox.mk.injEq]
  exact ⟨by ring, by ring, by ring, by ring⟩

/-- A 1000×2000 pixel page with no blocks of its own. -/
def exPage1000 : Page := ⟨⟨1000, 2000⟩, []⟩

/-- A block with pixel bbox (100, 200, 300, 400). -/
def exBlock100 : Block := ⟨⟨S "p1", S "b1", .Text⟩, ⟨100, 200, 300, 400⟩,
  true, []⟩

/-- A trivial stand-in for the external markup renderer. -/
def exRender : Document → Block → Str := fun _ _ => []

/-- C4 witness: the claim's example — page 1000×2000 px, block bbox
(100, 200, 300, 400) normalizes to (100, 100, 300, 200). -/
theorem claim_C4_normalize_exact_witness :
    0 < exPage1000.polygon.width ∧ 0 < exPage1000.polygon.height ∧
    (normalizeBlockJson exRender exBlock100 exDoc exPage1000).bbox =
      ⟨100, 100, 300, 200⟩ := by
  refine ⟨by norm_num [exPage1000], by norm_num [exPage1000], ?_⟩
  rw [claim_C4_normalize_exact exRender exBlock100 exDoc exPage1000
    (by norm_num [exPage1000]) (by norm_num [exPage1000])]
  norm_num [exBlock100, exPage1000, Bbox.mk.injEq]

/-! ## C6: top-level entry points never propagate failures -/

/-- C6.  The top-level entry points never propagate a failure:
`BaseLLMComplexBlockProcessor.__call__` returns normally whatever
`rewrite_blocks` does (including raising), and
`BaseLLMSimpleBlockProcessor.__call__` returns normally whatever
`rewrite_block` does — both quantified over every possible behavior of the
wrapped hook. -/
theorem claim_C6_calls_never_raise :
    (∀ (use_llm : Bool) (svc : Option Unit) (doc : Document)
      (rewrite : Document → Document × Option Err),
      ∃ r, complexCall use_llm svc doc rewrite = .ok r) ∧
    (∀ (doc : Document) (rb : Document → Document × Option Err),
      ∃ r, simpleCall doc rb = .ok r) := by
  constructor
  · intro u s doc rw
    unfold complexCall
    split
    · exact ⟨_, rfl⟩
    · rcases h : rw doc with ⟨d, oe⟩
      cases oe <;> exact ⟨_, rfl⟩
  · intro doc rb
    unfold simpleCall
    rcases h : rb doc with ⟨d, oe⟩
    cases oe <;> exact ⟨_, rfl⟩

/-! ## C8: zero-work short-circuit -/

/-- C8.  When no block matches the configured type filter,
`rewrite_blocks` counts zero matching blocks and returns immediately: no
progress bar is created, no worker pool is created, no progress update
runs, no task executes and nothing is raised — for every pool size,
processing hook and completion order. -/
theorem claim_C8_zero_work (d : Document) (bt : Option (List BlockTypes))
    (k : ℕ) (hook : Page → Block → Except Err Unit)
    (order : List (Page × Block)) (h : totalBlocks d bt = 0) :
    rewriteBlocks d bt k hook order =
      { poolCreated := false, pbarCreated := false, poolSize := k,
        progressUpdates := 0, executed := [], raised := none } := by
  simp [rewriteBlocks, h]

/-- A page containing only a `Table` block. -/
def exPageTable : Page :=
  ⟨⟨1, 1⟩, [⟨⟨S "p1", S "b1", .Table⟩, ⟨0, 0, 0, 0⟩, true, []⟩]⟩

/-- A document whose only block is a `Table` (no `Text` matches). -/
def exDocTable : Document := ⟨[exPageTable]⟩

/-- C8 witness: a document with one block, none of which matches the
`Text`-only filter, short-circuits. -/
theorem claim_C8_zero_work_witness :
    totalBlocks exDocTable (some [.Text]) = 0 ∧
    rewriteBlocks exDocTable (some [.Text]) 3 (fun _ _ => .ok ()) [] =
      { poolCreated := false, pbarCreated := false, poolSize := 3,
        progressUpdates := 0, executed := [], raised := none } :=
  ⟨by decide, claim_C8_zero_work exDocTable (some [.Text]) 3
    (fun _ _ => .ok ()) [] (by decide)⟩

/-! ## C9: configuration no-op -/

/-- C9.  When `use_llm` is false or no inference service is bound (the
stored `llm_service` — which `__init__` leaves `None` unless `use_llm` is
set — is `None`), `BaseLLMComplexBlockProcessor.__call__` returns silently:
the wrapped `rewrite_blocks` is not invoked, the document is unchanged and
no error is raised — for every possible behavior of `rewrite_blocks`. -/
theorem claim_C9_config_noop (use_llm : Bool) (svc : Option Unit)
    (doc : Document) (rewrite : Document → Document × Option Err)
    (h : use_llm = false ∨ initLlmService use_llm svc = none) :
    complexCall use_llm (initLlmService use_llm svc) doc rewrite =
      .ok { doc := doc, invoked := false, warned := none } := by
  unfold complexCall
  rw [if_pos h]

/-- C9 witness: both disabling paths at a concrete document and a rewrite
hook that would raise if it ever ran. -/
theorem claim_C9_config_noop_witness :
    complexCall false (initLlmService false (some ())) exDoc
        (fun d => (d, some .keyError)) =
      .ok { doc := exDoc, invoked := false, warned := none } ∧
    complexCall true (initLlmService true none) exDoc
        (fun d => (d, some .keyError)) =
      .ok { doc := exDoc, invoked := false, warned := none } :=
  ⟨claim_C9_config_noop false (some ()) exDoc _ (Or.inl rfl),
    claim_C9_config_noop true none exDoc _ (Or.inr rfl)⟩

/-! ## Helper lemmas: the orchestrator -/

lemma totalBlocks_eq_length (d : Document) (bt : Option (List BlockTypes)) :
    totalBlocks d bt = (submittedTasks d bt).length := by
  simp [totalBlocks, submittedTasks, List.length_flatMap,
    Function.comp_def, List.length_map]

lemma mem_submittedTasks (d : Document) (bt : Option (List BlockTypes))
    (p : Page) (b : Block) :
    (p, b) ∈ submittedTasks d bt ↔
      p ∈ d.pages ∧ b ∈ matchingBlocks bt d p := by
  simp only [submittedTasks, List.mem_flatMap, List.mem_map,
    Prod.mk.injEq]
  constructor
  · rintro ⟨q, hq, b2, hb2, rfl, rfl⟩
    exact ⟨hq, hb2⟩
  · rintro ⟨hp, hb⟩
    exact ⟨p, hp, b, hb, rfl, rfl⟩

lemma matchingBlocks_nodup (bt : Option (List BlockTypes)) (d : Document)
    (p : Page) (h : p.blocks.Nodup) : (matchingBlocks bt d p).Nodup := by
  cases bt with
  | none => exact h
  | some ts => exact h.filter _

lemma flatMap_pairs_nodup (bt : Option (List BlockTypes)) (d : Document) :
    ∀ (ps : List Page), ps.Nodup → (∀ p ∈ ps, p.blocks.Nodup) →
    (ps.flatMap
      (fun p => (matchingBlocks bt d p).map (fun b => (p, b)))).Nodup := by
  intro ps
  induction ps with
  | nil => simp
  | cons p ps ih =>
    intro hnd hb
    rw [List.flatMap_cons, List.nodup_append]
    refine ⟨?_, ih (List.nodup_cons.mp hnd).2
      (fun x hx => hb x (List.mem_cons_of_mem p hx)), ?_⟩
    · exact List.Nodup.map (fun x y h => congrArg Prod.snd h)
        (matchingBlocks_nodup bt d p (hb p (List.mem_cons_self p ps)))
    · intro x hx1 hx2
      obtain ⟨b, _, rfl⟩ := List.mem_map.mp hx1
      obtain ⟨q, hq, hxq⟩ := List.mem_flatMap.mp hx2
      obtain ⟨b2, _, heq⟩ := List.mem_map.mp hxq
      have hqp : q = p := congrArg Prod.fst heq
      subst hqp
      exact (List.nodup_cons.mp hnd).1 hq

lemma submittedTasks_nodup (d : Document) (bt : Option (List BlockTypes))
    (hp : d.pages.Nodup) (hb : ∀ p ∈ d.pages, p.blocks.Nodup) :
    (submittedTasks d bt).Nodup :=
  flatMap_pairs_nodup bt d d.pages hp hb

lemma executed_perm_submitted (d : Document) (bt : Option (List BlockTypes))
    (k : ℕ) (hook : Page → Block → Except Err Unit)
    (order : List (Page × Block))
    (hperm : order.Perm (submittedTasks d bt)) :
    (rewriteBlocks d bt k hook order).executed.Perm
      (submittedTasks d bt) := by
  unfold rewriteBlocks
  split
  · rename_i h0
    have hlen : (submittedTasks d bt).length = 0 := by
      rw [← totalBlocks_eq_length]; exact h0
    rw [List.length_eq_zero] at hlen
    rw [hlen]
  · exact hperm

/-! ## C2: observe first error, drain all tasks -/

/-- C2.  When some submitted task fails, `rewrite_blocks` raises the first
failure observed in completion order — but no submitted task is cancelled:
the tasks that actually execute are exactly (a permutation of) the
submitted tasks, whatever the pool size, because leaving the pool's `with`
block drains every submitted task before the exception propagates. -/
theorem claim_C2_first_error_drain_all (d : Document)
    (bt : Option (List BlockTypes)) (k : ℕ)
    (hook : Page → Block → Except Err Unit) (order : List (Page × Block))
    (e : Err) (hperm : order.Perm (submittedTasks d bt))
    (hfail : firstError (order.map fun pb => hook pb.1 pb.2) = some e) :
    (rewriteBlocks d bt k hook order).raised = some e ∧
    (rewriteBlocks d bt k hook order).executed.Perm
      (submittedTasks d bt) := by
  refine ⟨?_, executed_perm_submitted d bt k hook order hperm⟩
  have horder : order ≠ [] := by
    intro h
    rw [h] at hfail
    simp [firstError] at hfail
  have h0 : ¬ totalBlocks d bt = 0 := by
    rw [totalBlocks_eq_length]
    intro hl
    rw [List.length_eq_zero] at hl
    rw [hl] at hperm
    exact horder hperm.eq_nil
  unfold rewriteBlocks
  rw [if_neg h0]
  exact hfail

/-- C2 witness: a document with one matching block whose task fails — the
orchestrator raises that failure and the executed task list is still the
full submitted list. -/
theorem claim_C2_first_error_drain_all_witness :
    (submittedTasks exDoc none).Perm (submittedTasks exDoc none) ∧
    firstError ((submittedTasks exDoc none).map
      (fun pb => (fun _ _ => Except.error Err.keyError) pb.1 pb.2)) =
      some .keyError ∧
    (rewriteBlocks exDoc none 3 (fun _ _ => .error .keyError)
      (submittedTasks exDoc none)).raised = some .keyError ∧
    (rewriteBlocks exDoc none 3 (fun _ _ => .error .keyError)
      (submittedTasks exDoc none)).executed.Perm
      (submittedTasks exDoc none) := by
  have h := claim_C2_first_error_drain_all exDoc none 3
    (fun _ _ => .error .keyError) (submittedTasks exDoc none) .keyError
    (List.Perm.refl _) rfl
  exact ⟨List.Perm.refl _, rfl, h.1, h.2⟩

/-! ## C7: concurrency completeness -/

/-- C7.  For a document whose pages and per-page block lists are
duplicate-free, the submitted tasks are a non-overlapping, exhaustive
partition of the matching `(page, block)` pairs — one task per pair — and
after `rewrite_blocks` returns, every matching pair has been executed
exactly once, for every pool size `k` and every completion order. -/
theorem claim_C7_completeness (d : Document)
    (bt : Option (List BlockTypes)) (k : ℕ)
    (hook : Page → Block → Except Err Unit) (order : List (Page × Block))
    (hp : d.pages.Nodup) (hb : ∀ p ∈ d.pages, p.blocks.Nodup)
    (hperm : order.Perm (submittedTasks d bt)) :
    (∀ (p : Page) (b : Block),
      (p, b) ∈ (rewriteBlocks d bt k hook order).executed ↔
        p ∈ d.pages ∧ b ∈ matchingBlocks bt d p) ∧
    (∀ pb ∈ submittedTasks d bt,
      @List.count (Page × Block) instBEqOfDecidableEq pb
        (rewriteBlocks d bt k hook order).executed = 1) := by
  have hex := executed_perm_submitted d bt k hook order hperm
  constructor
  · intro p b
    rw [hex.mem_iff]
    exact mem_submittedTasks d bt p b
  · intro pb hpb
    exact (hex.count_eq pb).trans
      (List.count_eq_one_of_mem (submittedTasks_nodup d bt hp hb) hpb)

/-- A second `Text` block on the same page as `exBlock`. -/
def exBlockB : Block := ⟨⟨S "p1", S "b2", .Text⟩, ⟨0, 0, 0, 0⟩, true, []⟩

/-- A page holding two distinct `Text` blocks. -/
def exPage2 : Page := ⟨⟨1, 1⟩, [exBlock, exBlockB]⟩

/-- A document with two matching blocks (`N = 2`). -/
def exDoc2 : Document := ⟨[exPage2]⟩

/-- C7 witness: two matching blocks, pool size 1 < 2 — both blocks are
executed exactly once and membership in the executed list coincides with
matching the filter. -/
theorem claim_C7_completeness_witness :
    exDoc2.pages.Nodup ∧ (∀ p ∈ exDoc2.pages, p.blocks.Nodup) ∧
    ((exPage2, exBlock) ∈ (rewriteBlocks exDoc2 none 1 (fun _ _ => .ok ())
        (submittedTasks exDoc2 none)).executed ↔
      exPage2 ∈ exDoc2.pages ∧ exBlock ∈ matchingBlocks none exDoc2
        exPage2) ∧
    @List.count (Page × Block) instBEqOfDecidableEq (exPage2, exBlock)
      (rewriteBlocks exDoc2 none 1 (fun _ _ => .ok ())
        (submittedTasks exDoc2 none)).executed = 1 ∧
    @List.count (Page × Block) instBEqOfDecidableEq (exPage2, exBlockB)
      (rewriteBlocks exDoc2 none 1 (fun _ _ => .ok ())
        (submittedTasks exDoc2 none)).executed = 1 := by
  have h := claim_C7_completeness exDoc2 none 1 (fun _ _ => .ok ())
    (submittedTasks exDoc2 none) (by decide) (by decide)
    (List.Perm.refl _)
  exact ⟨by decide, by decide, h.1 exPage2 exBlock, h.2 _ (by decide),
    h.2 _ (by decide)⟩

end Marker
